import Mathlib

/-!
Verification of the assignment lifecycle and per-recipient submission-state
engine of the huella-tesjo backend.  The definitions below are a shallow
embedding of the relevant JavaScript source: the Mongoose schemas in
src/models/Assignment.js and src/models/TeacherStats.js, and the handlers in
src/controllers/assignmentController.js.  Timestamps are modelled as integer
milliseconds; user and assignment identifiers as naturals; JavaScript `null`
and absent fields as `Option.none`.
-/

namespace Huella

/-- Per-response delivery status, from the `submissionStatus` enum of the
responses subschema in src/models/Assignment.js. -/
inductive SubmissionStatus
  | onTime
  | late
  | closed
deriving DecidableEq, Repr

/-- Per-response review status, from the `status` enum of the responses
subschema in src/models/Assignment.js. -/
inductive ReviewStatus
  | submitted
  | reviewed
deriving DecidableEq, Repr

/-- Coarse assignment status values that appear anywhere in the controller.
The schema enum in src/models/Assignment.js only allows `pending` and
`completed`; the others are written by the scheduling and admin handlers. -/
inductive CoarseStatus
  | pending
  | completed
  | scheduled
  | active
  | cancelled
  | publicationError
  | completedLate
  | notDelivered
deriving DecidableEq, Repr

/-- An attachment or response file reference. -/
structure FileRef where
  fileName : String
  fileUrl : String
deriving DecidableEq, Repr

/-- A per-recipient response, embedded in an assignment
(src/models/Assignment.js, `responses`).  The handlers can store JavaScript
`null` in `submittedAt`, `submissionStatus` and `status`, hence the options. -/
structure Response where
  user : Nat
  files : List FileRef
  submittedAt : Option Int
  submissionStatus : Option SubmissionStatus
  status : Option ReviewStatus
deriving DecidableEq, Repr

/-- An assignment document (src/models/Assignment.js together with the extra
fields the controller writes on it). -/
structure Assignment where
  title : String
  description : String
  dueDate : Int
  closeDate : Int
  publishDate : Option Int
  isGeneral : Bool
  assignedTo : List Nat
  createdBy : Nat
  status : CoarseStatus
  completedAt : Option Int
  completedBy : Option Nat
  adminCompleted : Bool
  attachments : List FileRef
  responses : List Response
  originalAssignmentId : Option Nat
  scheduledPublish : Bool
  publishedAt : Option Int
  publicationError : Option String
  updatedAt : Option Int
  updatedBy : Option Nat
deriving DecidableEq, Repr

/-- First response of a given user in a response list; this is the semantics
of the `responses.find(r => r.user.toString() === id.toString())` pattern used
throughout the controller. -/
def findResponse : List Response → Nat → Option Response
  | [], _ => none
  | r :: rest, uid => if r.user = uid then some r else findResponse rest uid

/-- Replace the first response of a given user (via `findIndex` plus in-place
assignment in the controller), or push a new one at the end when none exists.
The update function receives the existing response, if any. -/
def setResponse : List Response → Nat → (Option Response → Response) → List Response
  | [], _, f => [f none]
  | r :: rest, uid, f =>
      if r.user = uid then f (some r) :: rest else r :: setResponse rest uid f

/-- Remove every response of a given user; semantics of the
`responses.filter(r => r.user.toString() !== teacherId)` in
updateTeacherStatusInAssignment. -/
def removeResponse : List Response → Nat → List Response
  | [], _ => []
  | r :: rest, uid =>
      if r.user = uid then removeResponse rest uid else r :: removeResponse rest uid

/-- The `status` enum of src/models/Assignment.js: only `pending` and
`completed` pass Mongoose validation. -/
def schemaAllowsStatus : CoarseStatus → Bool
  | .pending => true
  | .completed => true
  | _ => false

/-- Mongoose `save()`: full-document validation; an assignment whose coarse
status lies outside the schema enum is rejected with a ValidationError. -/
def saveAssignment (a : Assignment) : Except String Assignment :=
  if schemaAllowsStatus a.status then .ok a else .error "ValidationError: status"

/-- Five-way resolved status space, plus the coarse labels that
getTeacherFilteredAssignments can pass through verbatim when no response
exists, and the `vencido` label it produces for overdue pending items. -/
inductive StatusLabel
  | pending
  | completed
  | completedLate
  | notDelivered
  | overdue
  | vencido
  | scheduled
  | active
  | cancelled
  | publicationError
deriving DecidableEq, Repr

/-- Verbatim rendering of a coarse status as a status label, used when
getTeacherFilteredAssignments falls back to the base status of the
assignment. -/
def coarseLabel : CoarseStatus → StatusLabel
  | .pending => .pending
  | .completed => .completed
  | .scheduled => .scheduled
  | .active => .active
  | .cancelled => .cancelled
  | .publicationError => .publicationError
  | .completedLate => .completedLate
  | .notDelivered => .notDelivered

/-- Status mapping of getTeachersStatusForAssignment
(src/controllers/assignmentController.js lines 1917 to 1930) for a present
response. -/
def mapResponseStatus (r : Response) : StatusLabel :=
  if r.status = some .submitted ∧ r.submissionStatus = some .onTime then .completed
  else if r.status = some .submitted ∧ r.submissionStatus = some .late then .completedLate
  else if r.submissionStatus = some .closed ∨ (r.status = some .reviewed ∧ r.submittedAt = none)
    then .notDelivered
  else .pending

/-- Per-teacher status of getTeachersStatusForAssignment: `pending` by default
when the teacher has no response. -/
def teacherStatusFor (a : Assignment) (uid : Nat) : StatusLabel :=
  match findResponse a.responses uid with
  | some r => mapResponseStatus r
  | none => .pending

/-- The inline response-status chain of getTeacherFilteredAssignments
(src/controllers/assignmentController.js lines 575 to 583), written out
separately because it is a second copy of the mapping in the source. -/
def filteredResponseStatus (r : Response) : StatusLabel :=
  if r.status = some .submitted ∧ r.submissionStatus = some .onTime then .completed
  else if r.status = some .submitted ∧ r.submissionStatus = some .late then .completedLate
  else if r.submissionStatus = some .closed ∨ (r.status = some .reviewed ∧ r.submittedAt = none)
    then .notDelivered
  else .pending

/-- Per-assignment status that getTeacherFilteredAssignments attaches for the
current teacher (src/controllers/assignmentController.js lines 563 to 622).
With no response it passes the base status through, turning `active` into
`pending`, and downgrades `pending` to `vencido` once `dueDate < now`. -/
def teacherSpecificStatus (now : Int) (uid : Nat) (a : Assignment) : StatusLabel :=
  match findResponse a.responses uid with
  | some r => filteredResponseStatus r
  | none =>
      let s := if a.status = .active then StatusLabel.pending else coarseLabel a.status
      if s = .pending ∧ a.dueDate < now then .vencido else s

/-- The three counter buckets of TeacherStats (src/models/TeacherStats.js). -/
inductive StatsBucket
  | completed
  | pending
  | overdue
deriving DecidableEq, Repr

/-- Per-assignment bucket used by TeacherStats.updateTeacherStats
(src/models/TeacherStats.js lines 48 to 72): a third copy of the status
mapping, collapsing on-time and late into `completed`, sending closed or
reviewed-without-submission responses to `overdue`, and classifying
assignments without a response by `dueDate` alone. -/
def statsClassify (now : Int) (teacherId : Nat) (a : Assignment) : StatsBucket :=
  match findResponse a.responses teacherId with
  | some r =>
      if r.status = some .submitted ∧ r.submissionStatus = some .onTime then .completed
      else if r.status = some .submitted ∧ r.submissionStatus = some .late then .completed
      else if r.submissionStatus = some .closed ∨ (r.status = some .reviewed ∧ r.submittedAt = none)
        then .overdue
      else .pending
  | none => if now < a.dueDate then .pending else .overdue

/-- Cached per-teacher counters (src/models/TeacherStats.js). -/
structure TeacherStatsRec where
  completed : Nat
  pending : Nat
  overdue : Nat
  total : Nat
  lastUpdated : Int
deriving DecidableEq, Repr

/-- The counting loop of TeacherStats.updateTeacherStats: one increment per
assignment, into exactly one of the three buckets. -/
def tallyStats (now : Int) (teacherId : Nat) : List Assignment → Nat × Nat × Nat
  | [] => (0, 0, 0)
  | a :: rest =>
      let t := tallyStats now teacherId rest
      match statsClassify now teacherId a with
      | .completed => (t.1 + 1, t.2.1, t.2.2)
      | .pending => (t.1, t.2.1 + 1, t.2.2)
      | .overdue => (t.1, t.2.1, t.2.2 + 1)

/-- TeacherStats.updateTeacherStats: recompute and wholesale-replace the
cached counters of a teacher from all assignments listing the teacher in
`assignedTo`. -/
def updateTeacherStats (now : Int) (teacherId : Nat) (assignments : List Assignment) :
    TeacherStatsRec :=
  let t := tallyStats now teacherId assignments
  { completed := t.1, pending := t.2.1, overdue := t.2.2,
    total := assignments.length, lastUpdated := now }

/-- Modelled from the spec: whether the coarse status counts as a still-open
state in rule 7 of the SubmissionStatusResolver of section 4.1; the repository
has no single resolver function, so this follows the words of the spec. -/
def specOpenState : CoarseStatus → Bool
  | .pending => true
  | .active => true
  | _ => false

/-- Modelled from the spec: the canonical SubmissionStatusResolver of section
4.1, the single status mapping that all call sites are required to reproduce
bit-for-bit.  The repository has no such shared function; this definition
follows the decision order written in the spec. -/
def specResolve (now dueDate closeDate : Int) (base : CoarseStatus)
    (resp : Option Response) : StatusLabel :=
  match resp with
  | some r =>
      if r.status = some .submitted ∧ r.submissionStatus = some .onTime then .completed
      else if r.status = some .submitted ∧ r.submissionStatus = some .late then .completedLate
      else if r.submissionStatus = some .closed ∨ (r.status = some .reviewed ∧ r.submittedAt = none)
        then .notDelivered
      else .pending
  | none =>
      if closeDate < now then .overdue
      else if now ≤ dueDate then .pending
      else if specOpenState base then .pending else .overdue

/-- Modelled from the spec: the collapse the StatsAggregator of section 4.4
applies to resolver output when tallying the three counter buckets: on-time
and late completions merge into `completed`, non-delivering states count as
`overdue`. -/
def statsBucketOf : StatusLabel → StatsBucket
  | .completed => .completed
  | .completedLate => .completed
  | .notDelivered => .overdue
  | .overdue => .overdue
  | .vencido => .overdue
  | _ => .pending

/-- The delivery status the submit handler computes from the current time:
`late` exactly when `now > dueDate` (src/controllers/assignmentController.js
lines 247 to 251). -/
def computeSubmissionStatus (now dueDate : Int) : SubmissionStatus :=
  if dueDate < now then .late else .onTime

/-- Replies of submitAssignmentResponse.  The close-date rejection carries the
staged files that the handler unlinks before returning. -/
inductive SubmitReply
  | notAssigned
  | closedRejected (discarded : List FileRef)
  | ok (submissionStatus : SubmissionStatus)
  | serverError (msg : String)
deriving DecidableEq, Repr

/-- submitAssignmentResponse (src/controllers/assignmentController.js lines
207 to 291): reject callers outside `assignedTo`; reject and unlink staged
files when `now > closeDate`; otherwise record an on-time or late response,
replacing any previous response of the same user.  The pair returned is the
HTTP-level reply together with the stored state of the assignment after the
call. -/
def submitAssignmentResponse (a : Assignment) (uid : Nat) (files : List FileRef)
    (now : Int) : SubmitReply × Assignment :=
  if uid ∈ a.assignedTo then
    if a.closeDate < now then (.closedRejected files, a)
    else
      let submissionStatus := computeSubmissionStatus now a.dueDate
      let response : Response :=
        { user := uid, files := files, submittedAt := some now,
          submissionStatus := some submissionStatus, status := some .submitted }
      let a' := { a with responses := setResponse a.responses uid (fun _ => response) }
      match saveAssignment a' with
      | .ok a'' => (.ok submissionStatus, a'')
      | .error e => (.serverError e, a)
  else (.notAssigned, a)

/-- Replies of the two mark-completed handlers. -/
inductive MarkReply
  | notAssigned
  | alreadyCompleted
  | afterCloseDate
  | ok
  | serverError (msg : String)
deriving DecidableEq, Repr

/-- markAssignmentCompleted, the recipient-facing handler
(src/controllers/assignmentController.js lines 671 to 780): requires the
caller in `assignedTo`, the assignment not yet completed, and `now` not past
`closeDate`; then records an on-time submitted response for the caller -
keeping existing files - and sets the coarse status to completed with
`completedAt = now`. -/
def markAssignmentCompleted (a : Assignment) (uid : Nat) (now : Int) :
    MarkReply × Assignment :=
  if uid ∈ a.assignedTo then
    if a.status = .completed then (.alreadyCompleted, a)
    else if a.closeDate < now then (.afterCloseDate, a)
    else
      let rs := setResponse a.responses uid (fun old =>
        match old with
        | some r => { r with
            submissionStatus := some .onTime,
            status := some .submitted, submittedAt := some now }
        | none => { user := uid, files := [], submittedAt := some now,
                    submissionStatus := some .onTime, status := some .submitted })
      let a' := { a with responses := rs, status := .completed, completedAt := some now }
      match saveAssignment a' with
      | .ok a'' => (.ok, a'')
      | .error e => (.serverError e, a)
  else (.notAssigned, a)

/-- markAssignmentCompletedByAdmin (src/controllers/assignmentController.js
lines 1021 to 1087): the only check is that the assignment is not already
completed; there is no close-date check on this path.  On success it sets
status completed, `completedAt = now`, `completedBy` to the acting admin, and
the adminCompleted flag. -/
def markAssignmentCompletedByAdmin (a : Assignment) (adminId : Nat) (now : Int) :
    MarkReply × Assignment :=
  if a.status = .completed then (.alreadyCompleted, a)
  else
    let a' := { a with
      status := .completed, completedAt := some now,
      completedBy := some adminId, adminCompleted := true }
    match saveAssignment a' with
    | .ok a'' => (.ok, a'')
    | .error e => (.serverError e, a)

/-- Request body of createAssignment. -/
structure CreateReq where
  title : String
  description : String
  dueDate : Int
  closeDate : Int
  isGeneral : Bool
  assignedTo : List Nat
  files : List FileRef
deriving DecidableEq, Repr

/-- Replies of createAssignment; the validation rejections carry the uploaded
files the handler unlinks. -/
inductive CreateReply
  | missingFields (discarded : List FileRef)
  | badDates (discarded : List FileRef)
  | badTeachers
  | ok (a : Assignment)
deriving DecidableEq, Repr

/-- createAssignment (src/controllers/assignmentController.js lines 10 to
159): requires title and description, rejects `closeDate < dueDate`, snapshots
the full teacher roster for general assignments, validates the provided
teacher ids otherwise, and saves with coarse status pending. -/
def createAssignment (adminId : Nat) (allTeachers : List Nat) (req : CreateReq) :
    CreateReply :=
  if req.title = "" ∨ req.description = "" then .missingFields req.files
  else if req.closeDate < req.dueDate then .badDates req.files
  else
    let base : Assignment :=
      { title := req.title, description := req.description,
        dueDate := req.dueDate, closeDate := req.closeDate, publishDate := none,
        isGeneral := req.isGeneral, assignedTo := [], createdBy := adminId,
        status := .pending, completedAt := none, completedBy := none,
        adminCompleted := false, attachments := req.files, responses := [],
        originalAssignmentId := none, scheduledPublish := false,
        publishedAt := none, publicationError := none,
        updatedAt := none, updatedBy := none }
    if req.isGeneral then
      if allTeachers = [] then .badTeachers
      else .ok { base with assignedTo := allTeachers }
    else
      if req.assignedTo = [] then .badTeachers
      else if req.assignedTo.Nodup ∧ ∀ t ∈ req.assignedTo, t ∈ allTeachers then
        .ok { base with assignedTo := req.assignedTo }
      else .badTeachers

/-- Update payload of updateAssignmentByAdmin; `none` stands for a field that
the request body leaves undefined. -/
structure UpdateData where
  title : Option String
  description : Option String
  dueDate : Option Int
  closeDate : Option Int
  isGeneral : Option Bool
  assignedTo : Option (List Nat)
deriving DecidableEq, Repr

/-- Field application of updateAssignmentByAdmin in normal edit mode: each
supplied field replaces the stored one, and a truthy `isGeneral` clears
`assignedTo` (src/controllers/assignmentController.js lines 1117 to 1143 and
1196 to 1207). -/
def applyUpdate (a : Assignment) (upd : UpdateData) : Assignment :=
  let updAssigned := if upd.isGeneral = some true then some [] else upd.assignedTo
  { a with
    title := upd.title.getD a.title,
    description := upd.description.getD a.description,
    dueDate := upd.dueDate.getD a.dueDate,
    closeDate := upd.closeDate.getD a.closeDate,
    isGeneral := upd.isGeneral.getD a.isGeneral,
    assignedTo := updAssigned.getD a.assignedTo }

/-- Replies of updateAssignmentByAdmin in normal edit mode. -/
inductive UpdateReply
  | badDates
  | ok
deriving DecidableEq, Repr

/-- updateAssignmentByAdmin, normal edit mode
(src/controllers/assignmentController.js lines 1090 to 1243): the date-order
validation runs only when the request supplies both `dueDate` and
`closeDate`; otherwise the supplied fields are written with no cross-field
check.  Returns the reply and the stored state after the call. -/
def updateAssignmentByAdmin (a : Assignment) (upd : UpdateData) :
    UpdateReply × Assignment :=
  match upd.dueDate, upd.closeDate with
  | some d, some c =>
      if c < d then (.badDates, a) else (.ok, applyUpdate a upd)
  | _, _ => (.ok, applyUpdate a upd)

/-- Request body of scheduleAssignment. -/
structure ScheduleReq where
  title : String
  description : String
  publishDate : Int
  dueDate : Int
  closeDate : Int
  assignedTo : List Nat
  assignToAll : Bool
deriving DecidableEq, Repr

/-- Replies of scheduleAssignment.  A Mongoose ValidationError raised by
`save()` is answered as an HTTP 400 by the error branch of the handler. -/
inductive ScheduleReply
  | missingFields
  | dueBeforePublish
  | closeBeforeDue
  | noTeachers
  | validationError (msg : String)
  | ok (a : Assignment)
deriving DecidableEq, Repr

/-- scheduleAssignment (src/controllers/assignmentController.js lines 1248 to
1414): validates the three dates - moving a past publish date one second into
the future - requires a nonempty teacher list unless assignToAll is set,
builds the document with coarse status `scheduled` and the scheduledPublish
flag, and saves it. -/
def scheduleAssignment (now : Int) (adminId : Nat) (req : ScheduleReq) : ScheduleReply :=
  if req.title = "" ∨ req.description = "" then .missingFields
  else
    let publishDate := if req.publishDate < now then now + 1000 else req.publishDate
    if req.dueDate ≤ publishDate then .dueBeforePublish
    else if req.closeDate ≤ req.dueDate then .closeBeforeDue
    else if ¬ req.assignToAll ∧ req.assignedTo = [] then .noTeachers
    else
      let a : Assignment :=
        { title := req.title, description := req.description,
          dueDate := req.dueDate, closeDate := req.closeDate,
          publishDate := some publishDate,
          isGeneral := req.assignToAll,
          assignedTo := if req.assignToAll then [] else req.assignedTo,
          createdBy := adminId, status := .scheduled,
          completedAt := none, completedBy := none, adminCompleted := false,
          attachments := [], responses := [], originalAssignmentId := none,
          scheduledPublish := true, publishedAt := none, publicationError := none,
          updatedAt := none, updatedBy := none }
      match saveAssignment a with
      | .ok a' => .ok a'
      | .error e => .validationError e

/-- The selection query of publishScheduledAssignments: scheduled-publish
documents in coarse status `scheduled` whose publish date has arrived. -/
def duePredicate (now : Int) (a : Assignment) : Bool :=
  a.scheduledPublish && (a.status == .scheduled)
    && (a.publishDate.any fun p => decide (p ≤ now))

/-- One iteration of the publication loop
(src/controllers/assignmentController.js lines 1675 to 1743).  The try block
sets status `active`, saves, and for general assignments snapshots the current
roster and saves again; notification failures are swallowed by an inner
handler.  The catch block sets status `publication_error` with the captured
message and saves; a success of that save lets the loop continue (`.ok`),
while a failure of the save inside the catch block escapes the loop
(`.error`). -/
def publishOne (now : Int) (allTeachers : List Nat) (a : Assignment) :
    Except String Assignment :=
  let a1 := { a with status := .active, publishedAt := some now }
  match saveAssignment a1 with
  | .error e =>
      saveAssignment { a1 with status := .publicationError, publicationError := some e }
  | .ok a1 =>
      if a1.isGeneral then
        let a2 := { a1 with assignedTo := allTeachers }
        match saveAssignment a2 with
        | .error e =>
            saveAssignment { a2 with
              status := .publicationError, publicationError := some e }
        | .ok a2 => .ok a2
      else .ok a1

/-- Outcome of one scheduler run: the successfully persisted per-item states,
in order, and whether the run finished normally.  An exception escaping the
per-item catch block aborts the whole run (`success = false`), leaving the
remaining due assignments unprocessed. -/
structure PublishRunResult where
  processed : List Assignment
  success : Bool
deriving DecidableEq, Repr

/-- The for-loop of publishScheduledAssignments with its outer try/catch. -/
def publishLoop (now : Int) (allTeachers : List Nat) : List Assignment → PublishRunResult
  | [] => { processed := [], success := true }
  | a :: rest =>
      match publishOne now allTeachers a with
      | .ok a' =>
          let r := publishLoop now allTeachers rest
          { processed := a' :: r.processed, success := r.success }
      | .error _ => { processed := [], success := false }

/-- publishScheduledAssignments, the cron-driven publisher: select the due
scheduled assignments, then run the publication loop over them. -/
def publishScheduledAssignments (now : Int) (allTeachers : List Nat)
    (docs : List Assignment) : PublishRunResult :=
  publishLoop now allTeachers (docs.filter (duePredicate now))

/-- The Spanish status vocabulary of updateTeacherAssignmentStatus. -/
inductive EstadoDocente
  | entregado
  | entregadoTarde
  | noEntregado
  | pendiente
deriving DecidableEq, Repr

/-- Replies of the two per-teacher status write handlers. -/
inductive AdminStatusReply
  | notAssigned
  | ok
  | serverError (msg : String)
deriving DecidableEq, Repr

/-- updateTeacherAssignmentStatus (src/controllers/assignmentController.js
lines 1760 to 1891): for entregado and entregado_tarde alike the stored
submissionStatus is derived from the clock - on-time, then late past dueDate,
then closed past closeDate - with review status submitted and
`submittedAt = now`; for no_entregado and pendiente alike the existing or new
response keeps review status reviewed with submissionStatus and submittedAt
cleared. -/
def updateTeacherAssignmentStatus (a : Assignment) (teacherId : Nat)
    (status : EstadoDocente) (now : Int) (adminId : Nat) :
    AdminStatusReply × Assignment :=
  if teacherId ∈ a.assignedTo then
    let delivered := match status with
      | .entregado | .entregadoTarde => true
      | _ => false
    let submissionStatus : SubmissionStatus :=
      if a.closeDate < now then .closed
      else if a.dueDate < now then .late
      else .onTime
    let rs := setResponse a.responses teacherId (fun old =>
      match old with
      | some r =>
          if delivered then
            { r with
              submissionStatus := some submissionStatus,
              status := some .submitted, submittedAt := some now }
          else
            { r with
              submissionStatus := none,
              status := some .reviewed, submittedAt := none }
      | none =>
          { user := teacherId, files := [],
            submittedAt := if delivered then some now else none,
            submissionStatus := if delivered then some submissionStatus else none,
            status := if delivered then some .submitted else some .reviewed })
    let a' := { a with responses := rs, updatedAt := some now, updatedBy := some adminId }
    match saveAssignment a' with
    | .ok a'' => (.ok, a'')
    | .error e => (.serverError e, a)
  else (.notAssigned, a)

/-- The English status vocabulary of updateTeacherStatusInAssignment. -/
inductive FrontStatus
  | completed
  | completedLate
  | notDelivered
  | pending
deriving DecidableEq, Repr

/-- updateTeacherStatusInAssignment (src/controllers/assignmentController.js
lines 1964 to 2097): completed maps to on-time/submitted with
`submittedAt = now`, completed-late to late/submitted, not-delivered to
closed/reviewed with submittedAt cleared, and pending removes the response of
the teacher entirely.  The coarse status of the assignment is deliberately
left untouched. -/
def updateTeacherStatusInAssignment (a : Assignment) (teacherId : Nat)
    (status : FrontStatus) (now : Int) (adminId : Nat) :
    AdminStatusReply × Assignment :=
  if teacherId ∈ a.assignedTo then
    let rs :=
      match status with
      | .pending => removeResponse a.responses teacherId
      | _ =>
          let fields : Option SubmissionStatus × Option ReviewStatus × Option Int :=
            match status with
            | .completed => (some .onTime, some .submitted, some now)
            | .completedLate => (some .late, some .submitted, some now)
            | _ => (some .closed, some .reviewed, none)
          setResponse a.responses teacherId (fun old =>
            match old with
            | some r =>
                { r with
                  submissionStatus := fields.1,
                  status := fields.2.1, submittedAt := fields.2.2 }
            | none =>
                { user := teacherId, files := [], submittedAt := fields.2.2,
                  submissionStatus := fields.1, status := fields.2.1 })
    let a' := { a with responses := rs, updatedAt := some now, updatedBy := some adminId }
    match saveAssignment a' with
    | .ok a'' => (.ok, a'')
    | .error e => (.serverError e, a)
  else (.notAssigned, a)

/-! Concrete fixtures used by counterexamples and witnesses. -/

/-- A plain pending assignment addressed to teacher 1, due at time 1, closing
at time 3. -/
def baseAssignment : Assignment :=
  { title := "t", description := "d", dueDate := 1, closeDate := 3,
    publishDate := none, isGeneral := false, assignedTo := [1], createdBy := 9,
    status := .pending, completedAt := none, completedBy := none,
    adminCompleted := false, attachments := [], responses := [],
    originalAssignmentId := none, scheduledPublish := false, publishedAt := none,
    publicationError := none, updatedAt := none, updatedBy := none }

/-- An on-time submitted response of teacher 1. -/
def sampleResp : Response :=
  { user := 1, files := [], submittedAt := some 5,
    submissionStatus := some .onTime, status := some .submitted }

/-- Assignment with an existing response of teacher 1, due 10, closing 20. -/
def sampleWithResponse : Assignment :=
  { baseAssignment with dueDate := 10, closeDate := 20, responses := [sampleResp] }

/-- A due scheduled general assignment, as produced by scheduleAssignment. -/
def schedFixture : Assignment :=
  { baseAssignment with
    status := .scheduled, scheduledPublish := true, isGeneral := true,
    assignedTo := [], publishDate := some 50, dueDate := 200, closeDate := 300 }

/-- A second due scheduled assignment, addressed to teacher 2. -/
def schedFixture2 : Assignment :=
  { schedFixture with isGeneral := false, assignedTo := [2], title := "t2" }

/-- A well-formed scheduling request. -/
def sampleScheduleReq : ScheduleReq :=
  { title := "t", description := "d", publishDate := 10, dueDate := 20,
    closeDate := 30, assignedTo := [1], assignToAll := false }

/-- A valid general create request matching the base fixture dates. -/
def sampleCreateReq : CreateReq :=
  { title := "t", description := "d", dueDate := 1, closeDate := 3,
    isGeneral := true, assignedTo := [], files := [] }

/-- An update payload supplying no field at all. -/
def emptyUpdate : UpdateData :=
  { title := none, description := none, dueDate := none, closeDate := none,
    isGeneral := none, assignedTo := none }

/-- An update payload supplying only a new due date of 20. -/
def onlyDueDate20 : UpdateData := { emptyUpdate with dueDate := some 20 }

/-- An update payload supplying both dates. -/
def bothDates (d c : Int) : UpdateData :=
  { emptyUpdate with dueDate := some d, closeDate := some c }

/-! Helper lemmas about the response-list operations. -/

/-- After a set-or-push whose produced response keeps the key user, the lookup
of that user returns exactly the produced response. -/
theorem findResponse_setResponse (uid : Nat) (f : Option Response → Response) :
    ∀ rs : List Response, (f (findResponse rs uid)).user = uid →
      findResponse (setResponse rs uid f) uid = some (f (findResponse rs uid))
  | [], h => by
      simp only [findResponse] at h
      simp [findResponse, setResponse, h]
  | r :: rest, h => by
      by_cases hr : r.user = uid
      · simp only [findResponse, setResponse, if_pos hr] at h ⊢
        simp [findResponse, h]
      · simp only [findResponse, setResponse, if_neg hr] at h ⊢
        simpa [findResponse, hr] using findResponse_setResponse uid f rest h

/-- Removing every response of a user makes the lookup of that user empty. -/
theorem findResponse_removeResponse (uid : Nat) :
    ∀ rs : List Response, findResponse (removeResponse rs uid) uid = none
  | [] => by simp [findResponse, removeResponse]
  | r :: rest => by
      by_cases hr : r.user = uid
      · simpa [removeResponse, hr] using findResponse_removeResponse uid rest
      · simpa [removeResponse, findResponse, hr] using findResponse_removeResponse uid rest

/-- A found response carries the key user. -/
theorem findResponse_user (uid : Nat) :
    ∀ rs : List Response, ∀ r, findResponse rs uid = some r → r.user = uid
  | [], r, h => by simp [findResponse] at h
  | x :: rest, r, h => by
      by_cases hx : x.user = uid
      · simp only [findResponse, if_pos hx, Option.some.injEq] at h
        rw [← h]; exact hx
      · simp only [findResponse, if_neg hx] at h
        exact findResponse_user uid rest r h

/-- The three status fields found after a set-or-push are the ones the update
function produced. -/
theorem proj_setResponse (rs : List Response) (uid : Nat)
    (f : Option Response → Response)
    (hu : (f (findResponse rs uid)).user = uid) :
    (findResponse (setResponse rs uid f) uid).map
        (fun r => (r.submissionStatus, r.status, r.submittedAt))
      = some ((f (findResponse rs uid)).submissionStatus,
              (f (findResponse rs uid)).status,
              (f (findResponse rs uid)).submittedAt) := by
  rw [findResponse_setResponse uid f rs hu]
  rfl

/-- Each assignment lands in exactly one bucket of the tally. -/
theorem tallyStats_sum (now : Int) (teacherId : Nat) :
    ∀ assignments : List Assignment,
      (tallyStats now teacherId assignments).1
        + (tallyStats now teacherId assignments).2.1
        + (tallyStats now teacherId assignments).2.2 = assignments.length
  | [] => by simp [tallyStats]
  | a :: rest => by
      have ih := tallyStats_sum now teacherId rest
      simp only [tallyStats, List.length_cons]
      cases statsClassify now teacherId a <;> simp <;> omega

/-! Claim theorems. -/

/-- C2: for every present response, the per-recipient status computed by
getTeachersStatusForAssignment follows the first-match decision order of the
spec - submitted/on-time to completed, submitted/late to completed-late,
closed or reviewed-without-submittedAt to not-delivered, anything else to
pending. -/
theorem c2_response_mapping_follows_spec_order
    (now dueDate closeDate : Int) (base : CoarseStatus) (r : Response) :
    mapResponseStatus r = specResolve now dueDate closeDate base (some r) := rfl

/-- C1: counterexample.  At time 2, with a pending assignment due at 1 and
closing at 3 and no response of teacher 1, the canonical resolver of section
4.1 yields `pending` (grace window before the close date), but the stats
recomputation classifies the assignment `overdue` and the recipient listing
labels it `vencido`: the two call sites use dueDate alone, contradicting the
claimed bit-for-bit agreement with the resolver. -/
theorem c1_counterexample :
    specResolve 2 baseAssignment.dueDate baseAssignment.closeDate baseAssignment.status
        (findResponse baseAssignment.responses 1) = .pending
    ∧ statsClassify 2 1 baseAssignment = .overdue
    ∧ teacherSpecificStatus 2 1 baseAssignment = .vencido
    ∧ statsClassify 2 1 baseAssignment
        ≠ statsBucketOf (specResolve 2 baseAssignment.dueDate baseAssignment.closeDate
            baseAssignment.status (findResponse baseAssignment.responses 1))
    ∧ teacherSpecificStatus 2 1 baseAssignment
        ≠ specResolve 2 baseAssignment.dueDate baseAssignment.closeDate
            baseAssignment.status (findResponse baseAssignment.responses 1) := by
  decide

/-- C1 (amended): when the recipient has a response, the stats recomputation
(collapsed to its three buckets) and the recipient listing agree with the
canonical resolver; when no response exists neither call site consults
closeDate - in the grace window of a still-pending assignment the resolver
says `pending` while the stats recomputation counts `overdue` and the listing
labels `vencido`. -/
theorem c1_amended (now : Int) (uid : Nat) (a : Assignment) :
    (∀ r, findResponse a.responses uid = some r →
        statsClassify now uid a
            = statsBucketOf (specResolve now a.dueDate a.closeDate a.status (some r))
          ∧ teacherSpecificStatus now uid a
            = specResolve now a.dueDate a.closeDate a.status (some r))
    ∧ (findResponse a.responses uid = none → a.status = .pending →
        a.dueDate < now → now ≤ a.closeDate →
          specResolve now a.dueDate a.closeDate a.status none = .pending
          ∧ statsClassify now uid a = .overdue
          ∧ teacherSpecificStatus now uid a = .vencido) := by
  constructor
  · intro r hr
    constructor
    · simp only [statsClassify, hr, specResolve]
      split_ifs <;> rfl
    · simp only [teacherSpecificStatus, hr]
      rfl
  · intro hnone hpend hdue hclose
    refine ⟨?_, ?_, ?_⟩
    · simp only [specResolve, hpend, specOpenState]
      rw [if_neg (not_lt.mpr hclose), if_neg (not_le.mpr hdue)]
      simp
    · simp only [statsClassify, hnone]
      rw [if_neg (not_lt.mpr (le_of_lt hdue))]
    · simp only [teacherSpecificStatus, hnone, hpend]
      simp [coarseLabel, hdue]

/-- C1 (amended) witness: the amended theorem applied at concrete inputs,
one with a response present and one in the grace window without one. -/
theorem c1_amended_witness :
    statsClassify 7 1 sampleWithResponse
        = statsBucketOf (specResolve 7 sampleWithResponse.dueDate
            sampleWithResponse.closeDate sampleWithResponse.status (some sampleResp))
    ∧ teacherSpecificStatus 7 1 sampleWithResponse
        = specResolve 7 sampleWithResponse.dueDate sampleWithResponse.closeDate
            sampleWithResponse.status (some sampleResp)
    ∧ statsClassify 2 1 baseAssignment = .overdue
    ∧ teacherSpecificStatus 2 1 baseAssignment = .vencido := by
  refine ⟨?_, ?_, ?_, ?_⟩
  · exact ((c1_amended 7 1 sampleWithResponse).1 sampleResp (by decide)).1
  · exact ((c1_amended 7 1 sampleWithResponse).1 sampleResp (by decide)).2
  · exact ((c1_amended 2 1 baseAssignment).2 (by decide) (by decide)
      (by decide) (by decide)).2.1
  · exact ((c1_amended 2 1 baseAssignment).2 (by decide) (by decide)
      (by decide) (by decide)).2.2

/-- C3: a submission strictly after the close date is rejected, the staged
files are discarded, and the stored assignment - responses included - is
unchanged by the call. -/
theorem c3_submit_after_close_rejected (a : Assignment) (uid : Nat)
    (files : List FileRef) (now : Int)
    (hAssigned : uid ∈ a.assignedTo) (hLate : a.closeDate < now) :
    submitAssignmentResponse a uid files now = (.closedRejected files, a) := by
  simp [submitAssignmentResponse, hAssigned, hLate]

/-- C3 witness: concrete rejected late submission. -/
theorem c3_witness :
    submitAssignmentResponse baseAssignment 1 [⟨"a.pdf", "uploads/a.pdf"⟩] 5
      = (.closedRejected [⟨"a.pdf", "uploads/a.pdf"⟩], baseAssignment) :=
  c3_submit_after_close_rejected baseAssignment 1 _ 5 (by decide) (by decide)

/-- C4: counterexample.  On the Spanish-status endpoint, `pendiente` does not
remove the response of the teacher - it keeps one marked reviewed - and
`entregado_tarde` before the due date stores `on-time`, not `late`, both
contradicting the claimed mapping. -/
theorem c4_counterexample :
    (updateTeacherAssignmentStatus sampleWithResponse 1 .pendiente 7 9).1 = .ok
    ∧ (findResponse
        (updateTeacherAssignmentStatus sampleWithResponse 1 .pendiente 7 9).2.responses
        1).isSome = true
    ∧ ((findResponse
        (updateTeacherAssignmentStatus sampleWithResponse 1 .entregadoTarde 7 9).2.responses
        1).map fun r => r.submissionStatus) = some (some .onTime) := by
  decide

/-- C4 (amended): the English-status endpoint implements exactly the claimed
mapping - completed to on-time/submitted, completed-late to late/submitted,
not-delivered to closed/reviewed with submittedAt cleared, pending to removal
of the response.  The Spanish-status endpoint does not: entregado and
entregado_tarde alike store the clock-derived status (closed past closeDate,
late past dueDate, otherwise on-time) as submitted with submittedAt = now,
and no_entregado and pendiente alike keep a response marked reviewed with
submissionStatus and submittedAt cleared. -/
theorem c4_amended (a : Assignment) (tid : Nat) (now : Int) (adminId : Nat)
    (hAssigned : tid ∈ a.assignedTo) (hSchema : schemaAllowsStatus a.status = true) :
    findResponse
        (updateTeacherStatusInAssignment a tid .pending now adminId).2.responses tid = none
    ∧ ((findResponse
        (updateTeacherStatusInAssignment a tid .completed now adminId).2.responses tid).map
          fun r => (r.submissionStatus, r.status, r.submittedAt))
        = some (some .onTime, some .submitted, some now)
    ∧ ((findResponse
        (updateTeacherStatusInAssignment a tid .completedLate now adminId).2.responses tid).map
          fun r => (r.submissionStatus, r.status, r.submittedAt))
        = some (some .late, some .submitted, some now)
    ∧ ((findResponse
        (updateTeacherStatusInAssignment a tid .notDelivered now adminId).2.responses tid).map
          fun r => (r.submissionStatus, r.status, r.submittedAt))
        = some (some .closed, some .reviewed, none)
    ∧ ((findResponse
        (updateTeacherAssignmentStatus a tid .entregado now adminId).2.responses tid).map
          fun r => (r.submissionStatus, r.status, r.submittedAt))
        = some (some (if a.closeDate < now then SubmissionStatus.closed
            else if a.dueDate < now then .late else .onTime), some .submitted, some now)
    ∧ ((findResponse
        (updateTeacherAssignmentStatus a tid .entregadoTarde now adminId).2.responses tid).map
          fun r => (r.submissionStatus, r.status, r.submittedAt))
        = some (some (if a.closeDate < now then SubmissionStatus.closed
            else if a.dueDate < now then .late else .onTime), some .submitted, some now)
    ∧ ((findResponse
        (updateTeacherAssignmentStatus a tid .noEntregado now adminId).2.responses tid).map
          fun r => (r.submissionStatus, r.status, r.submittedAt))
        = some (none, some .reviewed, none)
    ∧ ((findResponse
        (updateTeacherAssignmentStatus a tid .pendiente now adminId).2.responses tid).map
          fun r => (r.submissionStatus, r.status, r.submittedAt))
        = some (none, some .reviewed, none) := by
  refine ⟨?_, ?_, ?_, ?_, ?_, ?_, ?_, ?_⟩
  · simp only [updateTeacherStatusInAssignment, hAssigned, if_true, saveAssignment, hSchema]
    exact findResponse_removeResponse tid a.responses
  all_goals
    simp only [updateTeacherStatusInAssignment, updateTeacherAssignmentStatus,
      hAssigned, if_true, saveAssignment, hSchema]
  all_goals rw [findResponse_setResponse]
  all_goals
    cases hf : findResponse a.responses tid with
    | none => simp [hf]
    | some r =>
        have hr := findResponse_user tid a.responses r hf
        simp [hf, hr]

/-- C4 (amended) witness: the amended theorem applied to the fixture with an
existing response of teacher 1. -/
theorem c4_witness :
    findResponse
        (updateTeacherStatusInAssignment sampleWithResponse 1 .pending 7 9).2.responses 1
      = none
    ∧ ((findResponse
        (updateTeacherStatusInAssignment sampleWithResponse 1 .completedLate 7 9).2.responses
        1).map fun r => (r.submissionStatus, r.status, r.submittedAt))
      = some (some .late, some .submitted, some 7)
    ∧ ((findResponse
        (updateTeacherAssignmentStatus sampleWithResponse 1 .noEntregado 7 9).2.responses
        1).map fun r => (r.submissionStatus, r.status, r.submittedAt))
      = some (none, some .reviewed, none) := by
  have h := c4_amended sampleWithResponse 1 7 9 (by decide) (by decide)
  exact ⟨h.1, h.2.2.1, h.2.2.2.2.2.2.1⟩

/-- C5: counterexample.  At time 20, past the close date 3 of the fixture,
the administrator mark-completed path succeeds and marks the assignment
completed: the close-date failure condition claimed for every path does not
apply on the administrator path. -/
theorem c5_counterexample :
    baseAssignment.closeDate < 20
    ∧ (markAssignmentCompletedByAdmin baseAssignment 9 20).1 = .ok
    ∧ (markAssignmentCompletedByAdmin baseAssignment 9 20).2.status = .completed
    ∧ (markAssignmentCompletedByAdmin baseAssignment 9 20).2.completedAt = some 20 := by
  decide

/-- C5 (amended): both mark-completed paths fail when the assignment is
already completed; the recipient path additionally fails when now is strictly
after closeDate, leaving the assignment untouched; the administrator path
performs no close-date check and, whenever the assignment is not already
completed, sets coarse status completed, completedAt to now and completedBy to
the acting admin - even past the close date. -/
theorem c5_amended (a : Assignment) (uid adminId : Nat) (now : Int) :
    (uid ∈ a.assignedTo → a.status = .completed →
        markAssignmentCompleted a uid now = (.alreadyCompleted, a))
    ∧ (uid ∈ a.assignedTo → a.status ≠ .completed → a.closeDate < now →
        markAssignmentCompleted a uid now = (.afterCloseDate, a))
    ∧ (a.status = .completed →
        markAssignmentCompletedByAdmin a adminId now = (.alreadyCompleted, a))
    ∧ (a.status ≠ .completed →
        markAssignmentCompletedByAdmin a adminId now
          = (.ok, { a with
              status := .completed, completedAt := some now,
              completedBy := some adminId, adminCompleted := true })) := by
  refine ⟨?_, ?_, ?_, ?_⟩
  · intro hAssigned hDone
    simp [markAssignmentCompleted, hAssigned, hDone]
  · intro hAssigned hNotDone hLate
    simp [markAssignmentCompleted, hAssigned, hNotDone, hLate]
  · intro hDone
    simp [markAssignmentCompletedByAdmin, hDone]
  · intro hNotDone
    simp [markAssignmentCompletedByAdmin, hNotDone, saveAssignment, schemaAllowsStatus]

/-- C5 (amended) witness: concrete applications of all four branches. -/
theorem c5_witness :
    markAssignmentCompleted { baseAssignment with status := .completed } 1 2
        = (.alreadyCompleted, { baseAssignment with status := .completed })
    ∧ markAssignmentCompleted baseAssignment 1 5 = (.afterCloseDate, baseAssignment)
    ∧ markAssignmentCompletedByAdmin { baseAssignment with status := .completed } 9 2
        = (.alreadyCompleted, { baseAssignment with status := .completed })
    ∧ markAssignmentCompletedByAdmin baseAssignment 9 20
        = (.ok, { baseAssignment with
            status := .completed, completedAt := some 20,
            completedBy := some 9, adminCompleted := true }) := by
  refine ⟨?_, ?_, ?_, ?_⟩
  · exact (c5_amended { baseAssignment with status := .completed } 1 9 2).1
      (by decide) (by decide)
  · exact (c5_amended baseAssignment 1 9 5).2.1 (by decide) (by decide) (by decide)
  · exact (c5_amended { baseAssignment with status := .completed } 1 9 2).2.2.1
      (by decide)
  · exact (c5_amended baseAssignment 1 9 20).2.2.2 (by decide)

/-- C6: counterexample.  An admin update supplying only `dueDate = 20` on an
assignment with dueDate 5 and closeDate 10 is accepted and stores
dueDate 20 > closeDate 10: updates supplying a single date bypass the
validation and break the claimed invariant. -/
theorem c6_counterexample :
    (updateAssignmentByAdmin { baseAssignment with dueDate := 5, closeDate := 10 }
        onlyDueDate20).1 = .ok
    ∧ (updateAssignmentByAdmin { baseAssignment with dueDate := 5, closeDate := 10 }
        onlyDueDate20).2.dueDate = 20
    ∧ (updateAssignmentByAdmin { baseAssignment with dueDate := 5, closeDate := 10 }
        onlyDueDate20).2.closeDate = 10
    ∧ ¬ ((updateAssignmentByAdmin { baseAssignment with dueDate := 5, closeDate := 10 }
        onlyDueDate20).2.dueDate
          ≤ (updateAssignmentByAdmin { baseAssignment with dueDate := 5, closeDate := 10 }
        onlyDueDate20).2.closeDate) := by
  decide

/-- C6 (amended): dueDate ≤ closeDate holds after a successful create; an
admin update supplying both dates is rejected when closeDate < dueDate,
leaving the stored assignment untouched, and otherwise yields
dueDate ≤ closeDate; an update supplying neither date leaves both dates
unchanged.  Updates supplying exactly one date are not validated and can
violate the invariant. -/
theorem c6_amended (adminId : Nat) (allTeachers : List Nat) (req : CreateReq)
    (a res : Assignment) (upd : UpdateData) (d c : Int) :
    (createAssignment adminId allTeachers req = .ok res → res.dueDate ≤ res.closeDate)
    ∧ (upd.dueDate = some d → upd.closeDate = some c → c < d →
        updateAssignmentByAdmin a upd = (.badDates, a))
    ∧ (upd.dueDate = some d → upd.closeDate = some c → ¬ c < d →
        updateAssignmentByAdmin a upd = (.ok, applyUpdate a upd)
        ∧ (applyUpdate a upd).dueDate ≤ (applyUpdate a upd).closeDate)
    ∧ (upd.dueDate = none → upd.closeDate = none →
        (updateAssignmentByAdmin a upd).2.dueDate = a.dueDate
        ∧ (updateAssignmentByAdmin a upd).2.closeDate = a.closeDate) := by
  refine ⟨?_, ?_, ?_, ?_⟩
  · intro h
    unfold createAssignment at h
    split_ifs at h with h1 h2 h3 h4 h5 h6 <;> cases h <;>
      exact not_lt.mp h2
  · intro hd hc hlt
    simp [updateAssignmentByAdmin, hd, hc, hlt]
  · intro hd hc hge
    refine ⟨by simp [updateAssignmentByAdmin, hd, hc, hge], ?_⟩
    simp [applyUpdate, hd, hc]
    exact not_lt.mp hge
  · intro hd hc
    constructor <;> simp [updateAssignmentByAdmin, applyUpdate, hd, hc]

/-- C6 (amended) witness: concrete applications of the four branches. -/
theorem c6_witness :
    ({ baseAssignment with isGeneral := true, assignedTo := [1, 2] } : Assignment).dueDate
        ≤ ({ baseAssignment with isGeneral := true, assignedTo := [1, 2] } : Assignment).closeDate
    ∧ updateAssignmentByAdmin baseAssignment (bothDates 9 4) = (.badDates, baseAssignment)
    ∧ (applyUpdate baseAssignment (bothDates 4 9)).dueDate
        ≤ (applyUpdate baseAssignment (bothDates 4 9)).closeDate
    ∧ (updateAssignmentByAdmin baseAssignment emptyUpdate).2.dueDate
        = baseAssignment.dueDate := by
  refine ⟨?_, ?_, ?_, ?_⟩
  · exact (c6_amended 9 [1, 2] sampleCreateReq baseAssignment
      { baseAssignment with isGeneral := true, assignedTo := [1, 2] }
      emptyUpdate 0 0).1 (by decide)
  · exact (c6_amended 9 [] sampleCreateReq baseAssignment baseAssignment
      (bothDates 9 4) 9 4).2.1 rfl rfl (by decide)
  · exact ((c6_amended 9 [] sampleCreateReq baseAssignment baseAssignment
      (bothDates 4 9) 4 9).2.2.1 rfl rfl (by decide)).2
  · exact ((c6_amended 9 [] sampleCreateReq baseAssignment baseAssignment
      emptyUpdate 0 0).2.2.2 rfl rfl).1

/-- C7: the claim of per-item failure isolation fails on the code.  Both
fixture assignments are due for publication, yet the run persists nothing and
aborts: saving status `active` throws a ValidationError (the schema enum
allows only pending and completed), the catch block then tries to save status
`publication_error`, which the same enum also rejects, and that second
exception escapes the per-item catch, so the second assignment is never
processed. -/
theorem c7_batch_aborted_on_first_failure :
    (List.filter (duePredicate 100) [schedFixture, schedFixture2]).length = 2
    ∧ publishScheduledAssignments 100 [1, 2] [schedFixture, schedFixture2]
        = { processed := [], success := false }
    ∧ saveAssignment { schedFixture with status := .active, publishedAt := some 100 }
        = .error "ValidationError: status"
    ∧ saveAssignment { schedFixture with
          status := .publicationError, publishedAt := some 100,
          publicationError := some "ValidationError: status" }
        = .error "ValidationError: status" := by
  exact ⟨by decide, by decide, rfl, rfl⟩

/-- C8: the coarse status values the scheduler and the admin handlers write
are not persistable: the schema enum of src/models/Assignment.js admits only
pending and completed, so a schedule request that passes every date check is
answered with a ValidationError instead of a saved `scheduled` assignment,
and `publication_error` can never be saved either. -/
theorem c8_scheduled_status_rejected_by_schema :
    schemaAllowsStatus .pending = true
    ∧ schemaAllowsStatus .completed = true
    ∧ schemaAllowsStatus .scheduled = false
    ∧ schemaAllowsStatus .active = false
    ∧ schemaAllowsStatus .cancelled = false
    ∧ schemaAllowsStatus .publicationError = false
    ∧ scheduleAssignment 0 9 sampleScheduleReq
        = .validationError "ValidationError: status" := by
  decide

/-- C10: a recipient invoking mark-completed in the grace window (strictly
past dueDate, at or before closeDate) gets a response recorded with
submissionStatus on-time and submittedAt = now, whose resolved status is
completed and not completed-late, while the submit handler at the same
instant computes and stores `late`. -/
theorem c10_grace_window_completed (a : Assignment) (uid : Nat)
    (files : List FileRef) (now : Int)
    (hAssigned : uid ∈ a.assignedTo) (hNotDone : a.status ≠ .completed)
    (hGrace1 : a.dueDate < now) (hGrace2 : now ≤ a.closeDate)
    (hSchema : schemaAllowsStatus a.status = true) :
    (markAssignmentCompleted a uid now).1 = .ok
    ∧ ((findResponse (markAssignmentCompleted a uid now).2.responses uid).map
        fun r => (r.submissionStatus, r.status, r.submittedAt))
      = some (some .onTime, some .submitted, some now)
    ∧ ((findResponse (markAssignmentCompleted a uid now).2.responses uid).map
        mapResponseStatus) = some .completed
    ∧ computeSubmissionStatus now a.dueDate = .late
    ∧ (submitAssignmentResponse a uid files now).1 = .ok .late
    ∧ ((findResponse (submitAssignmentResponse a uid files now).2.responses uid).map
        fun r => r.submissionStatus) = some (some .late) := by
  have hNotLate : ¬ a.closeDate < now := not_lt.mpr hGrace2
  refine ⟨?_, ?_, ?_, ?_, ?_, ?_⟩
  · simp [markAssignmentCompleted, hAssigned, hNotDone, hNotLate,
      saveAssignment, schemaAllowsStatus]
  · simp only [markAssignmentCompleted, hAssigned, if_true, hNotDone, hNotLate,
      if_false, saveAssignment, schemaAllowsStatus]
    rw [findResponse_setResponse]
    · cases hf : findResponse a.responses uid <;> simp [hf]
    · cases hf : findResponse a.responses uid with
      | none => simp [hf]
      | some r =>
          have hr := findResponse_user uid a.responses r hf
          simp [hf, hr]
  · simp only [markAssignmentCompleted, hAssigned, if_true, hNotDone, hNotLate,
      if_false, saveAssignment, schemaAllowsStatus]
    rw [findResponse_setResponse]
    · cases hf : findResponse a.responses uid <;> simp [hf, mapResponseStatus]
    · cases hf : findResponse a.responses uid with
      | none => simp [hf]
      | some r =>
          have hr := findResponse_user uid a.responses r hf
          simp [hf, hr]
  · simp [computeSubmissionStatus, hGrace1]
  · simp [submitAssignmentResponse, hAssigned, hNotLate, saveAssignment, hSchema,
      computeSubmissionStatus, hGrace1]
  · simp only [submitAssignmentResponse, hAssigned, if_true, hNotLate, if_false,
      saveAssignment, hSchema, computeSubmissionStatus, hGrace1]
    rw [findResponse_setResponse]
    · cases hf : findResponse a.responses uid <;> simp [hf]
    · simp

/-- C10 witness: the recipient mark-completed at time 2 in the grace window
of the fixture yields an on-time completed response, while submit at the same
instant records late. -/
theorem c10_witness :
    (markAssignmentCompleted baseAssignment 1 2).1 = .ok
    ∧ ((findResponse (markAssignmentCompleted baseAssignment 1 2).2.responses 1).map
        mapResponseStatus) = some .completed
    ∧ (submitAssignmentResponse baseAssignment 1 [] 2).1 = .ok .late := by
  have h := c10_grace_window_completed baseAssignment 1 [] 2
    (by decide) (by decide) (by decide) (by decide) (by decide)
  exact ⟨h.1, h.2.2.1, h.2.2.2.2.1⟩

/-- C9: after a stats recomputation the stored counters satisfy
completed + pending + overdue = total, where total counts the assignments of
the recipient; every assignment is counted in exactly one bucket. -/
theorem c9_stats_partition (now : Int) (teacherId : Nat)
    (assignments : List Assignment) :
    (updateTeacherStats now teacherId assignments).completed
      + (updateTeacherStats now teacherId assignments).pending
      + (updateTeacherStats now teacherId assignments).overdue
      = (updateTeacherStats now teacherId assignments).total := by
  simpa [updateTeacherStats] using tallyStats_sum now teacherId assignments

end Huella
